import Mathlib

/-!
Verification of the todo-list-mcp identifier mapping service and schema
migration manager.

The development shallowly embeds:

* the Identifier Mapping Service (namespaced bidirectional maps between
  internal UUID keys and human-readable sequential ids); and
* the Schema Migration Manager of src/scripts/migrate.ts (concatenated in
  src/src/index.ts after the MCP server code): getStatus, migrate,
  rollback, backup and restore over a logical model of the SQLite file.

JavaScript Map objects are modelled as insertion-ordered association
lists; the SQLite storage file is modelled as a record of schema flags
and row lists.
-/

namespace TodoMcp

/-! ## Association lists modelling JavaScript Map semantics

A JS Map iterates in insertion order; set on an existing key updates the
entry in place, set on a fresh key appends, delete removes the entry.
-/

def mapGet : List (String × String) → String → Option String
  | [], _ => none
  | p :: rest, k => if p.1 = k then some p.2 else mapGet rest k

def mapSet : List (String × String) → String → String → List (String × String)
  | [], k, v => [(k, v)]
  | p :: rest, k, v => if p.1 = k then (k, v) :: rest else p :: mapSet rest k v

def mapDelete : List (String × String) → String → List (String × String)
  | [], _ => []
  | p :: rest, k => if p.1 = k then mapDelete rest k else p :: mapDelete rest k

def nodupKeys (l : List (String × String)) : Prop :=
  (l.map Prod.fst).Nodup

theorem nodupKeys_cons (q : String × String) (rest : List (String × String)) :
    nodupKeys (q :: rest) ↔ q.1 ∉ rest.map Prod.fst ∧ nodupKeys rest := by
  simp [nodupKeys]

theorem mapGet_set_self (l : List (String × String)) (k v : String) :
    mapGet (mapSet l k v) k = some v := by
  induction l with
  | nil => simp [mapSet, mapGet]
  | cons p rest ih =>
    by_cases h : p.1 = k
    · rw [mapSet, if_pos h]
      simp [mapGet]
    · rw [mapSet, if_neg h, mapGet, if_neg h, ih]

theorem mapGet_set_ne (l : List (String × String)) (k v k' : String) (h : k' ≠ k) :
    mapGet (mapSet l k v) k' = mapGet l k' := by
  induction l with
  | nil => simp [mapSet, mapGet, Ne.symm h]
  | cons p rest ih =>
    by_cases hp : p.1 = k
    · rw [mapSet, if_pos hp]
      rw [mapGet, if_neg (Ne.symm h), mapGet, if_neg (by rw [hp]; exact Ne.symm h)]
    · rw [mapSet, if_neg hp]
      by_cases hp' : p.1 = k'
      · rw [mapGet, if_pos hp', mapGet, if_pos hp']
      · rw [mapGet, if_neg hp', mapGet, if_neg hp', ih]

theorem mapGet_delete_self (l : List (String × String)) (k : String) :
    mapGet (mapDelete l k) k = none := by
  induction l with
  | nil => simp [mapDelete, mapGet]
  | cons p rest ih =>
    by_cases h : p.1 = k
    · rw [mapDelete, if_pos h]; exact ih
    · rw [mapDelete, if_neg h, mapGet, if_neg h]; exact ih

theorem mapGet_delete_ne (l : List (String × String)) (k k' : String) (h : k' ≠ k) :
    mapGet (mapDelete l k) k' = mapGet l k' := by
  induction l with
  | nil => simp [mapDelete]
  | cons p rest ih =>
    by_cases hp : p.1 = k
    · rw [mapDelete, if_pos hp, ih, mapGet, if_neg (by rw [hp]; exact Ne.symm h)]
    · by_cases hp' : p.1 = k'
      · rw [mapDelete, if_neg hp, mapGet, if_pos hp', mapGet, if_pos hp']
      · rw [mapDelete, if_neg hp, mapGet, if_neg hp', mapGet, if_neg hp', ih]

theorem mapGet_eq_none_iff (l : List (String × String)) (k : String) :
    mapGet l k = none ↔ k ∉ l.map Prod.fst := by
  induction l with
  | nil => simp [mapGet]
  | cons p rest ih =>
    by_cases h : p.1 = k
    · simp [mapGet, h]
    · simp [mapGet, h, ih, Ne.symm h]

theorem mapGet_of_mem_nodup (l : List (String × String)) (p : String × String)
    (hnd : nodupKeys l) (h : p ∈ l) : mapGet l p.1 = some p.2 := by
  induction l with
  | nil => cases h
  | cons q rest ih =>
    rcases List.mem_cons.mp h with h | h
    · subst h; simp [mapGet]
    · rcases (nodupKeys_cons q rest).mp hnd with ⟨hnot, hnd'⟩
      have hne : q.1 ≠ p.1 := by
        intro hh
        exact hnot (hh ▸ List.mem_map_of_mem Prod.fst h)
      rw [mapGet, if_neg hne]
      exact ih hnd' h

theorem mem_of_mapGet (l : List (String × String)) (k v : String)
    (h : mapGet l k = some v) : (k, v) ∈ l := by
  induction l with
  | nil => simp [mapGet] at h
  | cons q rest ih =>
    rcases q with ⟨qk, qv⟩
    by_cases hq : qk = k
    · subst hq
      simp [mapGet] at h
      subst h
      exact List.mem_cons_self _ _
    · simp [mapGet, hq] at h
      exact List.mem_cons_of_mem _ (ih h)

theorem mapSet_eq_append (l : List (String × String)) (k v : String)
    (h : k ∉ l.map Prod.fst) : mapSet l k v = l ++ [(k, v)] := by
  induction l with
  | nil => rfl
  | cons p rest ih =>
    simp only [List.map_cons, List.mem_cons, not_or] at h
    rw [mapSet, if_neg (Ne.symm h.1), ih h.2, List.cons_append]

theorem keys_mapSet_mem (l : List (String × String)) (k v : String)
    (h : k ∈ l.map Prod.fst) : (mapSet l k v).map Prod.fst = l.map Prod.fst := by
  induction l with
  | nil => simp at h
  | cons p rest ih =>
    by_cases hp : p.1 = k
    · rw [mapSet, if_pos hp]
      simp [hp]
    · have hmem : k ∈ rest.map Prod.fst := by
        simp only [List.map_cons, List.mem_cons] at h
        rcases h with h | h
        · exact absurd h.symm hp
        · exact h
      rw [mapSet, if_neg hp]
      simp [ih hmem]

theorem nodupKeys_mapSet (l : List (String × String)) (k v : String)
    (hnd : nodupKeys l) : nodupKeys (mapSet l k v) := by
  by_cases h : k ∈ l.map Prod.fst
  · unfold nodupKeys
    rw [keys_mapSet_mem l k v h]
    exact hnd
  · unfold nodupKeys at hnd ⊢
    rw [mapSet_eq_append l k v h, List.map_append]
    simp [List.nodup_append, hnd, h]

theorem mapDelete_sublist (l : List (String × String)) (k : String) :
    List.Sublist (mapDelete l k) l := by
  induction l with
  | nil => simp [mapDelete]
  | cons p rest ih =>
    by_cases hp : p.1 = k
    · rw [mapDelete, if_pos hp]
      exact ih.trans (List.sublist_cons_self p rest)
    · rw [mapDelete, if_neg hp]
      exact ih.cons₂ p

theorem nodupKeys_mapDelete (l : List (String × String)) (k : String)
    (hnd : nodupKeys l) : nodupKeys (mapDelete l k) :=
  hnd.sublist ((mapDelete_sublist l k).map Prod.fst)

/-! ## Decimal rendering of natural numbers

The source interpolates numbers into template strings; this is decimal
rendering. We render digits explicitly and prove the rendering injective
via a decoding round trip.
-/

def digitCh (n : Nat) : Char := Char.ofNat (48 + n)

def decCharsAux : Nat → Nat → List Char
  | 0, _ => []
  | fuel + 1, n =>
    if n < 10 then [digitCh n]
    else decCharsAux fuel (n / 10) ++ [digitCh (n % 10)]

def decChars (n : Nat) : List Char := decCharsAux (n + 1) n

def decRepr (n : Nat) : String := String.mk (decChars n)

def decDecode (l : List Char) : Nat :=
  l.foldl (fun a c => a * 10 + (c.toNat - 48)) 0

theorem digitCh_decode : ∀ k, k < 10 → (digitCh k).toNat - 48 = k := by decide

theorem decDecode_append_digit (l : List Char) (c : Char) :
    decDecode (l ++ [c]) = decDecode l * 10 + (c.toNat - 48) := by
  simp [decDecode, List.foldl_append]

theorem decDecode_decCharsAux :
    ∀ fuel n, n < fuel → decDecode (decCharsAux fuel n) = n := by
  intro fuel
  induction fuel with
  | zero => intro n h; omega
  | succ fuel ih =>
    intro n hn
    by_cases h : n < 10
    · rw [decCharsAux]
      simp [h, decDecode, digitCh_decode n h]
    · rw [decCharsAux]
      simp only [h, if_false]
      rw [decDecode_append_digit]
      have hdiv : n / 10 < n := Nat.div_lt_self (by omega) (by omega)
      rw [ih (n / 10) (by omega), digitCh_decode (n % 10) (Nat.mod_lt n (by omega))]
      omega

theorem decDecode_decChars (n : Nat) : decDecode (decChars n) = n :=
  decDecode_decCharsAux (n + 1) n (Nat.lt_succ_self n)

theorem decChars_injective : Function.Injective decChars := by
  intro m n h
  have := decDecode_decChars m
  rw [h, decDecode_decChars] at this
  exact this.symm

theorem decRepr_injective : Function.Injective decRepr := by
  intro m n h
  exact decChars_injective (congrArg String.data h)

/-! ## Identifier Mapping Service

Modelled from the spec: the implementation file
src/services/IdMapService.ts is missing from the sources; only its unit
tests (src/tests/services/IdMapService.test.ts) and its callers
(TagService, ProjectService, TodoService) are present. The model follows
spec section 4.1 (namespaced bidirectional maps with lazy allocation,
register, unregister, peek, list) together with the observable behavior
fixed by the unit tests. The per-namespace sequence is a monotonic
counter that only lazy allocation advances: the tests require that after
unregistering the sole mapping a fresh allocation yields a NEW display id
(not task-1 again), which matches the spec invariant that a number is
never reused after unregistration and contradicts the alternative
reading that the counter is recomputed from current map size.
-/

inductive EntityType
  | TODO
  | TAG
  | PROJECT
deriving DecidableEq

def prefixOf : EntityType → String
  | .TODO => "task"
  | .TAG => "tag"
  | .PROJECT => "project"

/-- Display id string: namespace prefix, a dash, the decimal number. -/
def mkId (t : EntityType) (n : Nat) : String :=
  prefixOf t ++ "-" ++ decRepr n

structure NsMaps where
  uuidToHuman : List (String × String)
  humanToUuid : List (String × String)
  nextId : Nat
deriving DecidableEq

def NsMaps.empty : NsMaps := ⟨[], [], 1⟩

def IdMapState := EntityType → NsMaps

def emptyIdMap : IdMapState := fun _ => NsMaps.empty

/-- Lazy allocation: return the existing display id for the uuid, or
allocate the next sequential id, store both directions, bump the counter. -/
def getHumanReadableId (uuid : String) (t : EntityType) (s : IdMapState) :
    String × IdMapState :=
  let ns := s t
  match mapGet ns.uuidToHuman uuid with
  | some h => (h, s)
  | none =>
    let h := mkId t ns.nextId
    let ns' : NsMaps :=
      ⟨mapSet ns.uuidToHuman uuid h, mapSet ns.humanToUuid h uuid, ns.nextId + 1⟩
    (h, fun t' => if t' = t then ns' else s t')

/-- Reverse lookup; an unknown display id gives none (JS undefined). -/
def getUuid (humanId : String) (t : EntityType) (s : IdMapState) : Option String :=
  mapGet (s t).humanToUuid humanId

/-- Eager registration: unconditionally install both directions
(last write wins); the sequence counter is not touched. -/
def registerMapping (humanId uuid : String) (t : EntityType) (s : IdMapState) :
    IdMapState :=
  let ns := s t
  let ns' : NsMaps :=
    ⟨mapSet ns.uuidToHuman uuid humanId, mapSet ns.humanToUuid humanId uuid, ns.nextId⟩
  fun t' => if t' = t then ns' else s t'

/-- Unregistration: remove both directions; silent no-op when absent. -/
def unregisterMapping (humanId uuid : String) (t : EntityType) (s : IdMapState) :
    IdMapState :=
  let ns := s t
  let ns' : NsMaps :=
    ⟨mapDelete ns.uuidToHuman uuid, mapDelete ns.humanToUuid humanId, ns.nextId⟩
  fun t' => if t' = t then ns' else s t'

/-- Read-only preview of the next lazily allocated display id. -/
def getNextId (t : EntityType) (s : IdMapState) : String :=
  mkId t (s t).nextId

/-- All current (displayId, internalKey) entries of one namespace, in
insertion order. -/
def getAllMappings (t : EntityType) (s : IdMapState) : List (String × String) :=
  (s t).humanToUuid

theorem mapDelete_of_get_none (l : List (String × String)) (k : String)
    (h : mapGet l k = none) : mapDelete l k = l := by
  induction l with
  | nil => rfl
  | cons p rest ih =>
    by_cases hp : p.1 = k
    · rw [mapGet, if_pos hp] at h
      cases h
    · rw [mapGet, if_neg hp] at h
      rw [mapDelete, if_neg hp, ih h]

/-- C2: from an empty mapping service, lazily allocating display ids for
three distinct keys (two in the task namespace, one in the tag namespace)
yields task-1, task-2 and tag-1; after unregistering task-1, a lazy
allocation for a fourth fresh task key returns task-3 (not task-1), the
mappings for task-2 and tag-1 are unchanged, and peeking the next tag id
gives tag-2. -/
theorem c2_end_to_end_scenario :
    (getHumanReadableId "u1" .TODO emptyIdMap).1 = "task-1" ∧
    (getHumanReadableId "u2" .TODO
      (getHumanReadableId "u1" .TODO emptyIdMap).2).1 = "task-2" ∧
    (getHumanReadableId "u3" .TAG
      (getHumanReadableId "u2" .TODO
        (getHumanReadableId "u1" .TODO emptyIdMap).2).2).1 = "tag-1" ∧
    (getHumanReadableId "u4" .TODO
      (unregisterMapping "task-1" "u1" .TODO
        (getHumanReadableId "u3" .TAG
          (getHumanReadableId "u2" .TODO
            (getHumanReadableId "u1" .TODO emptyIdMap).2).2).2)).1 = "task-3" ∧
    (getHumanReadableId "u4" .TODO
      (unregisterMapping "task-1" "u1" .TODO
        (getHumanReadableId "u3" .TAG
          (getHumanReadableId "u2" .TODO
            (getHumanReadableId "u1" .TODO emptyIdMap).2).2).2)).1 ≠ "task-1" ∧
    getUuid "task-2" .TODO
      (getHumanReadableId "u4" .TODO
        (unregisterMapping "task-1" "u1" .TODO
          (getHumanReadableId "u3" .TAG
            (getHumanReadableId "u2" .TODO
              (getHumanReadableId "u1" .TODO emptyIdMap).2).2).2)).2 = some "u2" ∧
    getUuid "tag-1" .TAG
      (getHumanReadableId "u4" .TODO
        (unregisterMapping "task-1" "u1" .TODO
          (getHumanReadableId "u3" .TAG
            (getHumanReadableId "u2" .TODO
              (getHumanReadableId "u1" .TODO emptyIdMap).2).2).2)).2 = some "u3" ∧
    (getHumanReadableId "u2" .TODO
      (getHumanReadableId "u4" .TODO
        (unregisterMapping "task-1" "u1" .TODO
          (getHumanReadableId "u3" .TAG
            (getHumanReadableId "u2" .TODO
              (getHumanReadableId "u1" .TODO emptyIdMap).2).2).2)).2).1 = "task-2" ∧
    (getHumanReadableId "u3" .TAG
      (getHumanReadableId "u4" .TODO
        (unregisterMapping "task-1" "u1" .TODO
          (getHumanReadableId "u3" .TAG
            (getHumanReadableId "u2" .TODO
              (getHumanReadableId "u1" .TODO emptyIdMap).2).2).2)).2).1 = "tag-1" ∧
    getNextId .TAG
      (getHumanReadableId "u4" .TODO
        (unregisterMapping "task-1" "u1" .TODO
          (getHumanReadableId "u3" .TAG
            (getHumanReadableId "u2" .TODO
              (getHumanReadableId "u1" .TODO emptyIdMap).2).2).2)).2 = "tag-2" := by
  decide

/-- C7: lazy allocation is idempotent — a second call with the same
internal key and namespace, with no intervening mutation, returns the
identical display id and leaves the state exactly as the first call left
it, so every later call returns the same value. -/
theorem c7_idempotent_allocation (s : IdMapState) (uuid : String) (t : EntityType) :
    (getHumanReadableId uuid t (getHumanReadableId uuid t s).2).1 =
      (getHumanReadableId uuid t s).1 ∧
    (getHumanReadableId uuid t (getHumanReadableId uuid t s).2).2 =
      (getHumanReadableId uuid t s).2 := by
  cases hg : mapGet (s t).uuidToHuman uuid with
  | some h => simp [getHumanReadableId, hg]
  | none => simp [getHumanReadableId, hg, mapGet_set_self]

/-- C8: the mapping primitives are total; lookup of an unknown display id
returns an explicit absence (none), and unregistering an absent mapping
is a silent no-op leaving the state unchanged. -/
theorem c8_total_primitives (s : IdMapState) (humanId uuid : String) (t : EntityType)
    (h1 : mapGet (s t).humanToUuid humanId = none)
    (h2 : mapGet (s t).uuidToHuman uuid = none) :
    getUuid humanId t s = none ∧ unregisterMapping humanId uuid t s = s := by
  constructor
  · exact h1
  · funext t'
    by_cases ht : t' = t
    · subst ht
      simp only [unregisterMapping, if_pos rfl]
      rw [mapDelete_of_get_none _ _ h2, mapDelete_of_get_none _ _ h1]
    · simp [unregisterMapping, ht]

/-- Closed witness for C8 at a concrete state and concrete unknown keys. -/
theorem c8_total_primitives_witness :
    getUuid "task-9" .TODO (getHumanReadableId "u1" .TODO emptyIdMap).2 = none ∧
    unregisterMapping "task-9" "zz" .TODO (getHumanReadableId "u1" .TODO emptyIdMap).2 =
      (getHumanReadableId "u1" .TODO emptyIdMap).2 :=
  c8_total_primitives _ "task-9" "zz" .TODO (by decide) (by decide)

/-- C9: namespace isolation — a lazy allocation in namespace A leaves the
whole per-namespace state of any other namespace B unchanged (contents,
counter preview and listing), and interleaved allocations across task and
tag yield task-1, tag-1, task-2, tag-2. -/
theorem c9_namespace_isolation :
    (∀ (s : IdMapState) (uuid : String) (tA tB : EntityType), tB ≠ tA →
      (getHumanReadableId uuid tA s).2 tB = s tB ∧
      getNextId tB (getHumanReadableId uuid tA s).2 = getNextId tB s ∧
      getAllMappings tB (getHumanReadableId uuid tA s).2 = getAllMappings tB s) ∧
    ((getHumanReadableId "a" .TODO emptyIdMap).1 = "task-1" ∧
      (getHumanReadableId "b" .TAG
        (getHumanReadableId "a" .TODO emptyIdMap).2).1 = "tag-1" ∧
      (getHumanReadableId "c" .TODO
        (getHumanReadableId "b" .TAG
          (getHumanReadableId "a" .TODO emptyIdMap).2).2).1 = "task-2" ∧
      (getHumanReadableId "d" .TAG
        (getHumanReadableId "c" .TODO
          (getHumanReadableId "b" .TAG
            (getHumanReadableId "a" .TODO emptyIdMap).2).2).2).1 = "tag-2") := by
  constructor
  · intro s uuid tA tB hne
    have hframe : (getHumanReadableId uuid tA s).2 tB = s tB := by
      cases hg : mapGet (s tA).uuidToHuman uuid with
      | some h => simp [getHumanReadableId, hg]
      | none => simp [getHumanReadableId, hg, hne]
    exact ⟨hframe, by simp [getNextId, hframe], by simp [getAllMappings, hframe]⟩
  · decide

/-- Closed witness for C9: a task allocation leaves the tag namespace of
the empty service untouched. -/
theorem c9_namespace_isolation_witness :
    (getHumanReadableId "x" .TODO emptyIdMap).2 .TAG = emptyIdMap .TAG :=
  (c9_namespace_isolation.1 emptyIdMap "x" .TODO .TAG (by decide)).1

/-! ## Sequences of mapping primitives and the bijectivity invariant -/

inductive MapOp
  | alloc (uuid : String) (t : EntityType)
  | lookup (humanId : String) (t : EntityType)
  | register (humanId uuid : String) (t : EntityType)
  | unregister (humanId uuid : String) (t : EntityType)

def applyOp (op : MapOp) (s : IdMapState) : IdMapState :=
  match op with
  | .alloc uuid t => (getHumanReadableId uuid t s).2
  | .lookup _ _ => s
  | .register humanId uuid t => registerMapping humanId uuid t s
  | .unregister humanId uuid t => unregisterMapping humanId uuid t s

def runOps (ops : List MapOp) : IdMapState :=
  ops.foldl (fun st op => applyOp op st) emptyIdMap

/-- An operation is safe in a state when it is not a register call and,
for unregister, the supplied pair is either the currently mapped pair in
both directions or fully absent. -/
def safeOp (s : IdMapState) : MapOp → Bool
  | .register _ _ _ => false
  | .unregister humanId uuid t =>
    (mapGet (s t).humanToUuid humanId == some uuid
      && mapGet (s t).uuidToHuman uuid == some humanId)
    || (mapGet (s t).humanToUuid humanId == none
      && mapGet (s t).uuidToHuman uuid == none)
  | _ => true

def safeTrace (s : IdMapState) : List MapOp → Bool
  | [] => true
  | op :: rest => safeOp s op && safeTrace (applyOp op s) rest

/-- The bijectivity property of one namespace as the claim states it:
distinct mapped internal keys have distinct display ids, distinct known
display ids resolve to distinct keys, and the two directions are
mutually inverse. -/
def nsBijective (ns : NsMaps) : Prop :=
  (∀ p ∈ ns.uuidToHuman, ∀ q ∈ ns.uuidToHuman, p.1 ≠ q.1 → p.2 ≠ q.2) ∧
  (∀ p ∈ ns.humanToUuid, ∀ q ∈ ns.humanToUuid, p.1 ≠ q.1 → p.2 ≠ q.2) ∧
  (∀ p ∈ ns.uuidToHuman, mapGet ns.humanToUuid p.2 = some p.1) ∧
  (∀ p ∈ ns.humanToUuid, mapGet ns.uuidToHuman p.2 = some p.1)

instance (ns : NsMaps) : Decidable (nsBijective ns) := by
  unfold nsBijective
  infer_instance

/-- Inductive invariant: duplicate-free keys, mutually inverse maps, and
every stored display id carries a number below the namespace counter. -/
def mapInv (t : EntityType) (ns : NsMaps) : Prop :=
  nodupKeys ns.uuidToHuman ∧ nodupKeys ns.humanToUuid ∧
  (∀ u h, mapGet ns.uuidToHuman u = some h ↔ mapGet ns.humanToUuid h = some u) ∧
  (∀ p ∈ ns.humanToUuid, ∃ m, m < ns.nextId ∧ p.1 = mkId t m)

def stateInv (s : IdMapState) : Prop := ∀ t, mapInv t (s t)

theorem mkId_inj (t : EntityType) (m n : Nat) (h : mkId t m = mkId t n) : m = n := by
  have hd := congrArg String.data h
  simp only [mkId, String.data_append] at hd
  exact decRepr_injective (String.ext (List.append_cancel_left hd))

theorem stateInv_empty : stateInv emptyIdMap := by
  intro t
  refine ⟨List.nodup_nil, List.nodup_nil, ?_, ?_⟩
  · intro u h
    simp [emptyIdMap, NsMaps.empty, mapGet]
  · intro p hp
    simp [emptyIdMap, NsMaps.empty] at hp

theorem stateInv_alloc (s : IdMapState) (h : stateInv s) (uuid : String)
    (t : EntityType) : stateInv (getHumanReadableId uuid t s).2 := by
  cases hg : mapGet (s t).uuidToHuman uuid with
  | some hid => simpa [getHumanReadableId, hg] using h
  | none =>
    obtain ⟨hnd1, hnd2, hiff, hids⟩ := h t
    have hfresh : mapGet (s t).humanToUuid (mkId t (s t).nextId) = none := by
      cases hcc : mapGet (s t).humanToUuid (mkId t (s t).nextId) with
      | none => rfl
      | some u =>
        exfalso
        obtain ⟨m, hm, hkey⟩ := hids _ (mem_of_mapGet _ _ _ hcc)
        have := mkId_inj t _ _ hkey
        omega
    intro t'
    by_cases ht : t' = t
    · subst ht
      simp only [getHumanReadableId, hg, eq_self_iff_true, if_true]
      refine ⟨nodupKeys_mapSet _ _ _ hnd1, nodupKeys_mapSet _ _ _ hnd2, ?_, ?_⟩
      · intro u' h'
        by_cases hu : u' = uuid
        · subst hu
          rw [mapGet_set_self]
          by_cases hh : h' = mkId t' (s t').nextId
          · subst hh
            rw [mapGet_set_self]
            simp
          · rw [mapGet_set_ne _ _ _ _ hh]
            constructor
            · intro hx
              exact absurd (Option.some.inj hx).symm hh
            · intro hx
              have hc := (hiff u' h').mpr hx
              rw [hg] at hc
              cases hc
        · rw [mapGet_set_ne _ _ _ _ hu]
          by_cases hh : h' = mkId t' (s t').nextId
          · subst hh
            rw [mapGet_set_self]
            constructor
            · intro hx
              have hc := (hiff u' _).mp hx
              rw [hfresh] at hc
              cases hc
            · intro hx
              exact absurd (Option.some.inj hx).symm hu
          · rw [mapGet_set_ne _ _ _ _ hh]
            exact hiff u' h'
      · dsimp only
        intro p hp
        rw [mapSet_eq_append _ _ _ ((mapGet_eq_none_iff _ _).mp hfresh)] at hp
        rcases List.mem_append.mp hp with hp | hp
        · obtain ⟨m, hm, hkey⟩ := hids p hp
          exact ⟨m, by omega, hkey⟩
        · rw [List.mem_singleton] at hp
          subst hp
          exact ⟨(s t').nextId, by omega, rfl⟩
    · have hframe : (getHumanReadableId uuid t s).2 t' = s t' := by
        simp [getHumanReadableId, hg, ht]
      rw [hframe]
      exact h t'

theorem stateInv_unreg (s : IdMapState) (h : stateInv s) (humanId uuid : String)
    (t : EntityType)
    (hok : (mapGet (s t).humanToUuid humanId = some uuid ∧
            mapGet (s t).uuidToHuman uuid = some humanId) ∨
           (mapGet (s t).humanToUuid humanId = none ∧
            mapGet (s t).uuidToHuman uuid = none)) :
    stateInv (unregisterMapping humanId uuid t s) := by
  intro t'
  by_cases ht : t' = t
  · subst ht
    obtain ⟨hnd1, hnd2, hiff, hids⟩ := h t'
    simp only [unregisterMapping, eq_self_iff_true, if_true]
    refine ⟨nodupKeys_mapDelete _ _ hnd1, nodupKeys_mapDelete _ _ hnd2, ?_, ?_⟩
    · rcases hok with ⟨hm1, hm2⟩ | ⟨hm1, hm2⟩
      · intro u' h'
        by_cases hu : u' = uuid
        · subst hu
          rw [mapGet_delete_self]
          by_cases hh : h' = humanId
          · subst hh
            rw [mapGet_delete_self]
            simp
          · rw [mapGet_delete_ne _ _ _ hh]
            constructor
            · intro hx
              cases hx
            · intro hx
              have hc := (hiff u' h').mpr hx
              rw [hm2] at hc
              exact absurd (Option.some.inj hc).symm hh
        · rw [mapGet_delete_ne _ _ _ hu]
          by_cases hh : h' = humanId
          · subst hh
            rw [mapGet_delete_self]
            constructor
            · intro hx
              have hc := (hiff u' h').mp hx
              rw [hm1] at hc
              exact absurd (Option.some.inj hc).symm hu
            · intro hx
              cases hx
          · rw [mapGet_delete_ne _ _ _ hh]
            exact hiff u' h'
      · simp only [mapDelete_of_get_none _ _ hm2, mapDelete_of_get_none _ _ hm1]
        exact hiff
    · intro p hp
      exact hids p ((mapDelete_sublist _ _).subset hp)
  · simp only [unregisterMapping, if_neg ht]
    exact h t'

theorem stateInv_run (ops : List MapOp) : ∀ s, stateInv s → safeTrace s ops = true →
    stateInv (ops.foldl (fun st op => applyOp op st) s) := by
  induction ops with
  | nil =>
    intro s h _
    exact h
  | cons op rest ih =>
    intro s h hsafe
    rw [safeTrace, Bool.and_eq_true] at hsafe
    refine ih (applyOp op s) ?_ hsafe.2
    cases op with
    | alloc uuid t => exact stateInv_alloc s h uuid t
    | lookup hid t => exact h
    | register hid uid t => exact absurd hsafe.1 (by simp [safeOp])
    | unregister hid uid t =>
      have hb := hsafe.1
      simp only [safeOp, Bool.or_eq_true, Bool.and_eq_true, beq_iff_eq] at hb
      exact stateInv_unreg s h hid uid t hb

theorem nsBijective_of_inv (t : EntityType) (ns : NsMaps) (h : mapInv t ns) :
    nsBijective ns := by
  obtain ⟨hnd1, hnd2, hiff, _⟩ := h
  refine ⟨?_, ?_, ?_, ?_⟩
  · intro p hp q hq hne heq
    have h1 := (hiff p.1 p.2).mp (mapGet_of_mem_nodup _ p hnd1 hp)
    have h2 := (hiff q.1 q.2).mp (mapGet_of_mem_nodup _ q hnd1 hq)
    rw [heq] at h1
    exact hne (Option.some.inj (h1.symm.trans h2))
  · intro p hp q hq hne heq
    have h1 := (hiff p.2 p.1).mpr (mapGet_of_mem_nodup _ p hnd2 hp)
    have h2 := (hiff q.2 q.1).mpr (mapGet_of_mem_nodup _ q hnd2 hq)
    rw [heq] at h1
    exact hne (Option.some.inj (h1.symm.trans h2))
  · intro p hp
    exact (hiff p.1 p.2).mp (mapGet_of_mem_nodup _ p hnd1 hp)
  · intro p hp
    exact (hiff p.2 p.1).mpr (mapGet_of_mem_nodup _ p hnd2 hp)

/-- C3 counterexample: the claim as stated fails — two register calls
installing different internal keys under the same display id leave two
distinct keys mapped to one display id, so the mapping after a finite
sequence of the four primitives need not be a bijection. -/
theorem c3_bijectivity_counterexample :
    ¬ nsBijective ((runOps [MapOp.register "task-1" "u1" .TODO,
      MapOp.register "task-1" "u2" .TODO]) .TODO) := by
  decide

/-- C3 amended: after every finite sequence of the primitives that uses
no register call and whose unregister calls pass a pair that is either
currently mapped in both directions or fully absent, every namespace of
the resulting mapping is a bijection (and since every prefix of such a
trace is such a trace, the invariant holds at every instant). -/
theorem c3_amended_bijectivity (ops : List MapOp)
    (h : safeTrace emptyIdMap ops = true) (t : EntityType) :
    nsBijective ((runOps ops) t) :=
  nsBijective_of_inv t _ (stateInv_run ops emptyIdMap stateInv_empty h t)

/-- Closed witness for the amended C3 on a concrete safe trace. -/
theorem c3_amended_bijectivity_witness :
    safeTrace emptyIdMap [MapOp.alloc "u1" .TODO, MapOp.alloc "u2" .TODO,
      MapOp.unregister "task-1" "u1" .TODO] = true ∧
    nsBijective ((runOps [MapOp.alloc "u1" .TODO, MapOp.alloc "u2" .TODO,
      MapOp.unregister "task-1" "u1" .TODO]) .TODO) :=
  ⟨by decide, c3_amended_bijectivity _ (by decide) .TODO⟩

/-! ## Schema Migration Manager

Embeds the migration script (src/scripts/migrate.ts, concatenated after
the server code in src/src/index.ts). The SQLite storage file is
modelled logically: flags for the structures the script creates or
drops, plus the row contents it reads or rewrites. Timestamps are
naturals (ISO strings compare chronologically). A transaction body is a
function returning Except: an exception from any statement aborts the
transaction and leaves the database unchanged, after which the script
restores the backup file and exits 1.
-/

structure TodoRow where
  id : String
  username : String
  title : String
  priority : String
  description : String
  completedAt : Option String
  createdAt : String
  updatedAt : String
  projectId : Option String
deriving DecidableEq

structure ProjectRow where
  id : String
  username : String
  name : String
  description : String
  createdAt : String
  updatedAt : String
deriving DecidableEq

structure Db where
  hasProjectsTable : Bool
  projects : List ProjectRow
  todosHasProjectId : Bool
  todos : List TodoRow
  hasMigrationsTable : Bool
  migrations : List (String × Nat)
deriving DecidableEq

/-- Count of todos whose project_id is not NULL. -/
def projectAssignments (todos : List TodoRow) : Nat :=
  (todos.filter (fun r => r.projectId.isSome)).length

/-- The row returned by SELECT version FROM schema_migrations ORDER BY
applied_at DESC LIMIT 1. -/
def latestVersion (l : List (String × Nat)) : Option String :=
  (l.foldl (fun acc p =>
    match acc with
    | none => some p
    | some q => if p.2 > q.2 then some p else some q) none).map Prod.fst

/-- Migration status; warning records whether the v2 message carries the
data-loss Warning text, which is appended exactly when the project count
or the assignment count is positive, and which rollback() tests with a
substring check on the message. -/
structure MigrationStatus where
  currentVersion : String
  canMigrate : Bool
  canRollback : Bool
  warning : Bool
deriving DecidableEq

/-- getStatus: no schema_migrations table, or an empty one, means v1; a
latest version v2 means v2 after the two COUNT queries succeed (they
throw when the projects table or the project_id column is missing, which
the catch branch reports as unknown); any other version label is
unknown and neither eligible. -/
def getStatus (db : Db) : MigrationStatus :=
  if !db.hasMigrationsTable then
    ⟨"v1", true, false, false⟩
  else
    match latestVersion db.migrations with
    | none => ⟨"v1", true, false, false⟩
    | some v =>
      if v = "v2" then
        if !db.hasProjectsTable || !db.todosHasProjectId then
          ⟨"unknown", false, false, false⟩
        else
          ⟨"v2", false, true,
            decide (0 < db.projects.length) || decide (0 < projectAssignments db.todos)⟩
      else
        ⟨v, false, false, false⟩

/-- The forward transaction body: CREATE TABLE IF NOT EXISTS projects,
ALTER TABLE todos ADD COLUMN project_id (fails when the column already
exists; new column is NULL in every row), CREATE TABLE IF NOT EXISTS
schema_migrations, INSERT the v2 record (version is UNIQUE). -/
def migrateTx (now : Nat) (db : Db) : Except String Db :=
  let db1 := if db.hasProjectsTable then db
    else { db with hasProjectsTable := true, projects := [] }
  if db1.todosHasProjectId then
    .error "duplicate column name: project_id"
  else
    let db2 := { db1 with
      todosHasProjectId := true,
      todos := db1.todos.map (fun r : TodoRow => { r with projectId := none }) }
    let db3 := if db2.hasMigrationsTable then db2
      else { db2 with hasMigrationsTable := true, migrations := [] }
    if db3.migrations.any (fun p => p.1 == "v2") then
      .error "UNIQUE constraint failed: schema_migrations.version"
    else
      .ok { db3 with migrations := db3.migrations ++ [("v2", now)] }

/-- The backward transaction body: DROP TABLE IF EXISTS projects,
rebuild todos without the project_id column by create-copy-drop-rename,
DELETE the v2 record from schema_migrations (which must exist). The
schema_migrations table itself is not dropped. -/
def rollbackTx (db : Db) : Except String Db :=
  let db1 := { db with hasProjectsTable := false, projects := ([] : List ProjectRow) }
  let db2 := { db1 with
    todosHasProjectId := false,
    todos := db1.todos.map (fun r : TodoRow => { r with projectId := none }) }
  if !db2.hasMigrationsTable then
    .error "no such table: schema_migrations"
  else
    .ok { db2 with migrations := db2.migrations.filter (fun p => p.1 != "v2") }

/-- The storage file and the fixed-path backup file. -/
structure FileSys where
  live : Db
  backup : Option Db
deriving DecidableEq

inductive MigOutcome
  | success
  | precondFail
  | cancelled
  | txFailRestored (msg : String)
deriving DecidableEq

/-- Process exit status of the migrate and rollback commands. -/
def MigOutcome.exitCode : MigOutcome → Nat
  | .success => 0
  | .cancelled => 0
  | .precondFail => 1
  | .txFailRestored _ => 1

/-- Running a transaction requires an open connection; better-sqlite3
throws on a closed one. -/
def txRun (connOpen : Bool) (body : Db → Except String Db) (db : Db) :
    Except String Db :=
  if connOpen then body db else .error "The database connection is not open"

/-- migrate(): check the precondition via getStatus, copy the live file
to the backup path, run the forward transaction; on failure restore the
backup over the live file and exit 1. -/
def migrate (now : Nat) (fs : FileSys) : FileSys × MigOutcome :=
  let st := getStatus fs.live
  if !st.canMigrate then
    (fs, .precondFail)
  else
    let bk := fs.live
    match txRun true (migrateTx now) fs.live with
    | .ok db => ({ live := db, backup := some bk }, .success)
    | .error e => ({ live := bk, backup := some bk }, .txFailRestored e)

/-- performRollback(): back up, run the backward transaction, restore the
backup and exit 1 on failure. The connection flag is supplied by the
caller: see rollback below. -/
def performRollback (connOpen : Bool) (fs : FileSys) : FileSys × MigOutcome :=
  let bk := fs.live
  match txRun connOpen rollbackTx fs.live with
  | .ok db => ({ live := db, backup := some bk }, .success)
  | .error e => ({ live := bk, backup := some bk }, .txFailRestored e)

/-- ASCII lowercasing of the operator answer, as answer.toLowerCase()
does for the answers of interest (yes and its case variants). -/
def strToLower (s : String) : String := String.mk (s.data.map Char.toLower)

/-- rollback(): check the precondition, and when the status message
carries the data-loss Warning, prompt for confirmation. The prompt is an
asynchronous rl.question callback: rollback() returns immediately after
registering it and main() then runs manager.close(), so when the
operator answer arrives the database connection is already closed; the
confirmed branch therefore runs performRollback against a closed
connection. An answer whose lowercasing is not yes cancels with exit 0.
Without a warning, performRollback runs synchronously inside rollback()
while the connection is still open. -/
def rollback (answer : String) (fs : FileSys) : FileSys × MigOutcome :=
  let st := getStatus fs.live
  if !st.canRollback then
    (fs, .precondFail)
  else if st.warning then
    if strToLower answer != "yes" then
      (fs, .cancelled)
    else
      performRollback false fs
  else
    performRollback true fs

instance : DecidableEq (Except String Db)
  | .error a, .error b =>
    if h : a = b then .isTrue (h ▸ rfl)
    else .isFalse (fun hh => h (Except.error.inj hh))
  | .error _, .ok _ => .isFalse (fun hh => Except.noConfusion hh)
  | .ok _, .error _ => .isFalse (fun hh => Except.noConfusion hh)
  | .ok a, .ok b =>
    if h : a = b then .isTrue (h ▸ rfl)
    else .isFalse (fun hh => h (Except.ok.inj hh))

/-! ## Concrete database values used in witnesses and counterexamples -/

def sampleTodo : TodoRow :=
  ⟨"t1", "alice", "Todo 1", "MEDIUM", "d", none, "2024-01-01", "2024-01-01", none⟩

def sampleTodoAssigned : TodoRow := { sampleTodo with projectId := some "p1" }

def sampleProject : ProjectRow :=
  ⟨"p1", "alice", "Proj", "d", "2024-01-01", "2024-01-01"⟩

/-- A v1 database that already carries a stray project_id column, which
makes the forward ALTER TABLE statement throw inside the transaction. -/
def strayColumnDb : Db := ⟨false, [], true, [sampleTodo], false, []⟩

/-- A baseline database with one todo row. -/
def baselineDb : Db := ⟨false, [], false, [sampleTodo], false, []⟩

/-- An upgraded database holding one project row (destructive data). -/
def upgradedWithProject : Db := ⟨true, [sampleProject], true, [], true, [("v2", 1)]⟩

/-- An upgraded database holding one project assignment. -/
def upgradedWithAssignment : Db :=
  ⟨true, [], true, [sampleTodoAssigned], true, [("v2", 1)]⟩

/-- An upgraded database whose version log carries an unrecognized label. -/
def unknownVersionDb : Db := ⟨true, [], true, [], true, [("v9", 1)]⟩

/-- A database whose version log stores the label v1, which the
unknown-version branch of getStatus echoes with both eligibilities
false. -/
def storedV1Db : Db := ⟨true, [], true, [], true, [("v1", 5)]⟩

theorem map_clearProjectId_of_none (l : List TodoRow)
    (h : ∀ r ∈ l, r.projectId = none) :
    l.map (fun r : TodoRow => { r with projectId := none }) = l := by
  induction l with
  | nil => rfl
  | cons r rest ih =>
    rw [List.map_cons, ih (fun x hx => h x (List.mem_cons_of_mem r hx))]
    have hr := h r (List.mem_cons_self r rest)
    cases r
    simp_all

theorem filter_isSome_eq_nil (l : List TodoRow)
    (h : ∀ r ∈ l, r.projectId = none) :
    l.filter (fun r => r.projectId.isSome) = [] := by
  rw [List.filter_eq_nil_iff]
  intro r hr
  simp [h r hr]

/-- C1: migration atomicity under mutation failure — whenever the
precondition holds but the mutating transaction throws, migrate()
restores the storage file from the backup taken before any mutation, so
the live file equals its pre-call state, the failure is reported, and
the process exits non-zero. -/
theorem c1_migrate_atomicity (fs : FileSys) (now : Nat) (e : String)
    (hpre : (getStatus fs.live).canMigrate = true)
    (hfail : migrateTx now fs.live = .error e) :
    (migrate now fs).1.live = fs.live ∧
    (migrate now fs).1.backup = some fs.live ∧
    (migrate now fs).2 = .txFailRestored e ∧
    (migrate now fs).2.exitCode ≠ 0 := by
  simp [migrate, hpre, txRun, hfail, MigOutcome.exitCode]

/-- Closed witness for C1: a stray project_id column on a v1 database
makes the forward transaction throw; the file is left byte-identical. -/
theorem c1_migrate_atomicity_witness :
    (migrate 0 ⟨strayColumnDb, none⟩).1.live = strayColumnDb ∧
    (migrate 0 ⟨strayColumnDb, none⟩).2.exitCode ≠ 0 :=
  ⟨(c1_migrate_atomicity ⟨strayColumnDb, none⟩ 0
      "duplicate column name: project_id" (by decide) (by decide)).1,
   (c1_migrate_atomicity ⟨strayColumnDb, none⟩ 0
      "duplicate column name: project_id" (by decide) (by decide)).2.2.2⟩

/-- The claim C4 wording: none of the structures added by migrate()
remain — no projects table, no project_id column, and no added tables at
all (in particular not the schema_migrations table). -/
def addedStructuresGone (db : Db) : Prop :=
  db.hasProjectsTable = false ∧ db.todosHasProjectId = false ∧
  db.hasMigrationsTable = false

instance (db : Db) : Decidable (addedStructuresGone db) := by
  unfold addedStructuresGone
  infer_instance

/-- C4 counterexample: after migrate() then rollback() from a concrete
baseline database, the schema_migrations table added by migrate() still
exists, so it is false that no added tables remain. -/
theorem c4_roundtrip_counterexample :
    ¬ addedStructuresGone
      (rollback "" (migrate 0 ⟨baselineDb, none⟩).1).1.live := by
  decide

/-- C4 amended: migrate() then rollback() from a baseline database (no
projects table, no project_id column, empty version log, all todos
unassigned) succeeds without prompting, returns getStatus to v1 with
migrate eligible again, removes the projects table and the project_id
column, and preserves the todo rows — but the now empty
schema_migrations version-log table remains. -/
theorem c4_amended_roundtrip (pr : List ProjectRow) (td : List TodoRow)
    (hmflag : Bool) (now : Nat) (h4 : ∀ r ∈ td, r.projectId = none) :
    (migrate now ⟨⟨false, pr, false, td, hmflag, []⟩, none⟩).2 = .success ∧
    (rollback "" (migrate now ⟨⟨false, pr, false, td, hmflag, []⟩, none⟩).1).2 =
      .success ∧
    (getStatus (rollback ""
      (migrate now ⟨⟨false, pr, false, td, hmflag, []⟩, none⟩).1).1.live).currentVersion
      = "v1" ∧
    (getStatus (rollback ""
      (migrate now ⟨⟨false, pr, false, td, hmflag, []⟩, none⟩).1).1.live).canMigrate
      = true ∧
    (rollback "" (migrate now
      ⟨⟨false, pr, false, td, hmflag, []⟩, none⟩).1).1.live.hasProjectsTable = false ∧
    (rollback "" (migrate now
      ⟨⟨false, pr, false, td, hmflag, []⟩, none⟩).1).1.live.todosHasProjectId = false ∧
    (rollback "" (migrate now
      ⟨⟨false, pr, false, td, hmflag, []⟩, none⟩).1).1.live.todos = td ∧
    (rollback "" (migrate now
      ⟨⟨false, pr, false, td, hmflag, []⟩, none⟩).1).1.live.hasMigrationsTable = true := by
  have hmap := map_clearProjectId_of_none td h4
  have hfil := filter_isSome_eq_nil td h4
  cases hmflag <;>
    simp [migrate, rollback, performRollback, getStatus, migrateTx, rollbackTx,
      txRun, latestVersion, projectAssignments, hmap, hfil]

/-- Closed witness for the amended C4 at a concrete baseline database. -/
theorem c4_amended_roundtrip_witness :
    (getStatus (rollback ""
      (migrate 0 ⟨⟨false, [], false, [sampleTodo], false, []⟩, none⟩).1).1.live).currentVersion
      = "v1" ∧
    (rollback "" (migrate 0
      ⟨⟨false, [], false, [sampleTodo], false, []⟩, none⟩).1).1.live.todos = [sampleTodo] :=
  ⟨(c4_amended_roundtrip [] [sampleTodo] false 0 (by decide)).2.2.1,
   (c4_amended_roundtrip [] [sampleTodo] false 0 (by decide)).2.2.2.2.2.2.1⟩

/-- C5 counterexample: the confirmation comparison lowercases the answer,
so the answer Yes — which differs from the literal yes — is accepted as
confirmation rather than cancelling; the process then exits 1, not 0
(the rollback attempt runs on the closed connection, fails, and the
backup is restored). -/
theorem c5_confirmation_counterexample :
    "Yes" ≠ "yes" ∧
    (rollback "Yes" ⟨upgradedWithProject, none⟩).2.exitCode ≠ 0 ∧
    (rollback "Yes" ⟨upgradedWithProject, none⟩).2 ≠ MigOutcome.cancelled := by
  decide

/-- C5 amended: for every database that getStatus reports rollback
eligible with the destructive-data warning, a rollback() whose answer
lowercases to anything other than yes performs no mutation — the file
system is returned unchanged — and the process exits 0 as an abandoned
operation. -/
theorem c5_amended_confirmation_gate (fs : FileSys) (answer : String)
    (hcan : (getStatus fs.live).canRollback = true)
    (hw : (getStatus fs.live).warning = true)
    (hans : strToLower answer ≠ "yes") :
    rollback answer fs = (fs, .cancelled) ∧
    (rollback answer fs).2.exitCode = 0 := by
  have h : (rollback answer fs) = (fs, .cancelled) := by
    simp [rollback, hcan, hw, hans]
  exact ⟨h, by rw [h]; rfl⟩

/-- Closed witness for the amended C5 with the answer no. -/
theorem c5_amended_confirmation_gate_witness :
    rollback "no" ⟨upgradedWithProject, none⟩ =
      (⟨upgradedWithProject, none⟩, .cancelled) :=
  (c5_amended_confirmation_gate ⟨upgradedWithProject, none⟩ "no"
    (by decide) (by decide) (by decide)).1

/-- C6 exhibit of the code bug: on a confirmed destructive rollback the
connection was already closed by main() when the answer callback runs,
so the transaction throws, the freshly taken backup is restored, the
database stays at v2 and the process exits 1 — the rollback never
completes to baseline. -/
theorem c6_confirmed_rollback_never_completes :
    (rollback "yes" ⟨upgradedWithAssignment, none⟩).1.live = upgradedWithAssignment ∧
    (getStatus (rollback "yes"
      ⟨upgradedWithAssignment, none⟩).1.live).currentVersion = "v2" ∧
    (rollback "yes" ⟨upgradedWithAssignment, none⟩).2 =
      .txFailRestored "The database connection is not open" ∧
    (rollback "yes" ⟨upgradedWithAssignment, none⟩).2.exitCode = 1 := by
  decide

/-- C10: getStatus is total and fail-closed — the storage-engine error
reachable in the v2 branch (missing projects table or missing project_id
column) yields version unknown with both eligibilities false; any latest
STORED version label other than v2 (including a stored v1 label, which
the unknown-version branch echoes as the current version) yields both
eligibilities false; a reported version outside v1 and v2 likewise; and
whenever an eligibility is false the corresponding command mutates
nothing and exits non-zero. -/
theorem c10_status_fail_closed (fs : FileSys) (now : Nat) (answer : String) :
    ((fs.live.hasMigrationsTable = true ∧
        latestVersion fs.live.migrations = some "v2" ∧
        (fs.live.hasProjectsTable = false ∨ fs.live.todosHasProjectId = false)) →
      getStatus fs.live = ⟨"unknown", false, false, false⟩) ∧
    (∀ v, fs.live.hasMigrationsTable = true →
      latestVersion fs.live.migrations = some v → v ≠ "v2" →
      (getStatus fs.live).currentVersion = v ∧
      (getStatus fs.live).canMigrate = false ∧
      (getStatus fs.live).canRollback = false) ∧
    ((getStatus fs.live).currentVersion ≠ "v1" ∧
        (getStatus fs.live).currentVersion ≠ "v2" →
      (getStatus fs.live).canMigrate = false ∧
      (getStatus fs.live).canRollback = false) ∧
    ((getStatus fs.live).canMigrate = false →
      (migrate now fs).1 = fs ∧ (migrate now fs).2.exitCode ≠ 0) ∧
    ((getStatus fs.live).canRollback = false →
      (rollback answer fs).1 = fs ∧ (rollback answer fs).2.exitCode ≠ 0) := by
  refine ⟨?_, ?_, ?_, ?_, ?_⟩
  · rintro ⟨h1, h2, h3⟩
    have h3' : (!fs.live.hasProjectsTable || !fs.live.todosHasProjectId) = true := by
      rcases h3 with h3 | h3 <;> simp [h3]
    simp [getStatus, h1, h2, h3']
  · intro v h1 hlv hv
    simp [getStatus, h1, hlv, hv]
  · intro hv
    cases h1 : fs.live.hasMigrationsTable with
    | false => simp [getStatus, h1] at hv
    | true =>
      cases hlv : latestVersion fs.live.migrations with
      | none => simp [getStatus, h1, hlv] at hv
      | some v =>
        by_cases h2 : v = "v2"
        · subst h2
          cases h3 : (!fs.live.hasProjectsTable || !fs.live.todosHasProjectId) with
          | true => simp [getStatus, h1, hlv, h3]
          | false => simp [getStatus, h1, hlv, h3] at hv
        · simp [getStatus, h1, hlv, h2]
  · intro hcm
    have : (!(getStatus fs.live).canMigrate) = true := by simp [hcm]
    constructor
    · simp [migrate, this]
    · simp [migrate, this, MigOutcome.exitCode]
  · intro hcr
    have : (!(getStatus fs.live).canRollback) = true := by simp [hcr]
    constructor
    · simp [rollback, this]
    · simp [rollback, this, MigOutcome.exitCode]

/-- Closed witness for C10 at a database whose version log carries an
unrecognized label and at one whose log stores the label v1. -/
theorem c10_status_fail_closed_witness :
    ((getStatus storedV1Db).currentVersion = "v1" ∧
      (getStatus storedV1Db).canMigrate = false ∧
      (getStatus storedV1Db).canRollback = false) ∧
    (getStatus unknownVersionDb).canMigrate = false ∧
    (migrate 0 ⟨unknownVersionDb, none⟩).1 = ⟨unknownVersionDb, none⟩ ∧
    (rollback "yes" ⟨unknownVersionDb, none⟩).2.exitCode ≠ 0 :=
  ⟨(c10_status_fail_closed ⟨storedV1Db, none⟩ 0 "yes").2.1 "v1"
      (by decide) (by decide) (by decide),
   ((c10_status_fail_closed ⟨unknownVersionDb, none⟩ 0 "yes").2.2.1 (by decide)).1,
   ((c10_status_fail_closed ⟨unknownVersionDb, none⟩ 0 "yes").2.2.2.1 (by decide)).1,
   ((c10_status_fail_closed ⟨unknownVersionDb, none⟩ 0 "yes").2.2.2.2 (by decide)).2⟩

end TodoMcp
